import Mathlib

/-!
# Verification of the mc-status-bot Minecraft Server List Ping client

Shallow embedding of `src/lib.rs` (the Discord bot entry points and its
`get_server_status` query) together with the Server List Ping protocol
primitives the spec describes.  The protocol client itself (VarInt framing,
status-JSON parsing, timeout enforcement) lives in the external
`async_minecraft_ping` crate, so those parts are modelled from the spec and
marked as such on each definition.
-/

namespace McStatusBot

/-- Modelled from the spec: frame-level error kinds of the VarInt codec,
which lives in the external `async_minecraft_ping` crate. -/
inductive FrameError where
  | TruncatedStream
  | VarIntOverflow
deriving DecidableEq, Repr

/-- Modelled from the spec: VarInt encoding, 7 data bits per byte,
continuation bit in the high bit, least-significant group first. -/
def encodeVarInt (n : Nat) : List Nat :=
  if h : n < 128 then [n]
  else (n % 128 + 128) :: encodeVarInt (n / 128)
termination_by n
decreasing_by
  exact Nat.div_lt_self (by omega) (by omega)

/-- Modelled from the spec: VarInt decoding worker.  `acc` is the value
accumulated so far, `shift` the bit position of the next group, `count` the
number of continuation bytes already consumed; a fifth continuation byte is
the overlong/malformed case `VarIntOverflow`, and running out of bytes
mid-VarInt is `TruncatedStream`. -/
def decodeVarIntAux : Nat → Nat → Nat → List Nat → Except FrameError (Nat × List Nat)
  | _, _, _, [] => .error .TruncatedStream
  | acc, shift, count, b :: rest =>
    if b < 128 then .ok (acc + b % 128 * 2 ^ shift, rest)
    else if 4 ≤ count then .error .VarIntOverflow
    else decodeVarIntAux (acc + b % 128 * 2 ^ shift) (shift + 7) (count + 1) rest

/-- Modelled from the spec: VarInt decoding from the front of a byte stream,
returning the value and the unread remainder. -/
def decodeVarInt (s : List Nat) : Except FrameError (Nat × List Nat) :=
  decodeVarIntAux 0 0 0 s

theorem encodeVarInt_length_pos (n : Nat) : 1 ≤ (encodeVarInt n).length := by
  rw [encodeVarInt]
  split <;> simp

theorem encodeVarInt_length_le (k : Nat) :
    ∀ n : Nat, 1 ≤ k → n < 2 ^ (7 * k) → (encodeVarInt n).length ≤ k := by
  induction k with
  | zero => intro n hk; omega
  | succ k ih =>
    intro n _ hn
    rw [encodeVarInt]
    split
    · simp
    · rename_i h
      have hk1 : 1 ≤ k := by
        by_contra hk0
        have : k = 0 := by omega
        subst this
        simp at hn
        omega
      have hdiv : n / 128 < 2 ^ (7 * k) := by
        have h2 : 2 ^ (7 * (k + 1)) = 2 ^ (7 * k) * 128 := by
          rw [Nat.mul_succ, pow_add]
          norm_num
        rw [h2] at hn
        exact Nat.div_lt_of_lt_mul (by omega)
      have := ih (n / 128) hk1 hdiv
      simpa using this

theorem decodeVarIntAux_encode :
    ∀ (n acc shift count : Nat) (rest : List Nat),
      count + (encodeVarInt n).length ≤ 5 →
      decodeVarIntAux acc shift count (encodeVarInt n ++ rest) =
        .ok (acc + n * 2 ^ shift, rest) := by
  intro n
  induction n using Nat.strong_induction_on with
  | _ n ih =>
    intro acc shift count rest hlen
    by_cases h : n < 128
    · rw [encodeVarInt]
      simp only [h, dite_true]
      simp [decodeVarIntAux, h, Nat.mod_eq_of_lt h]
    · rw [encodeVarInt] at hlen ⊢
      simp only [h, dite_false] at hlen ⊢
      have htail : 1 ≤ (encodeVarInt (n / 128)).length := encodeVarInt_length_pos _
      simp only [List.length_cons] at hlen
      have hb : ¬ (n % 128 + 128 < 128) := by omega
      have hcount : ¬ (4 ≤ count) := by omega
      rw [List.cons_append, decodeVarIntAux]
      simp only [hb, if_false, hcount]
      rw [ih (n / 128) (Nat.div_lt_self (by omega) (by omega)) _ _ _ _ (by omega)]
      have hmod : (n % 128 + 128) % 128 = n % 128 := by omega
      have key : acc + n % 128 * 2 ^ shift + n / 128 * 2 ^ (shift + 7) =
          acc + n * 2 ^ shift := by
        have h128 : 128 * (n / 128) + n % 128 = n := Nat.div_add_mod n 128
        have hpow : (2 : Nat) ^ (shift + 7) = 2 ^ shift * 128 := by
          rw [pow_add]
          norm_num
        rw [hpow]
        conv_rhs => rw [← h128]
        ring
      rw [hmod, key]

theorem decodeVarInt_encode_append (n : Nat) (rest : List Nat)
    (h : (encodeVarInt n).length ≤ 5) :
    decodeVarInt (encodeVarInt n ++ rest) = .ok (n, rest) := by
  have := decodeVarIntAux_encode n 0 0 0 rest (by omega)
  simpa [decodeVarInt] using this

/-- C7: for every integer in the 32-bit non-negative range, decoding the
VarInt encoding of `n` returns `n` with the whole input consumed. -/
theorem varint_round_trip (n : Nat) (h : n ≤ 2 ^ 31 - 1) :
    decodeVarInt (encodeVarInt n) = .ok (n, []) := by
  have hlt : n < 2 ^ (7 * 5) := by
    have : (2 : Nat) ^ 31 - 1 < 2 ^ 35 := by norm_num
    omega
  have h5 : (encodeVarInt n).length ≤ 5 := encodeVarInt_length_le 5 n (by omega) hlt
  have := decodeVarInt_encode_append n [] h5
  simpa using this

/-- C7 witness: the round trip evaluated at the concrete value 300. -/
theorem varint_round_trip_witness :
    decodeVarInt (encodeVarInt 300) = .ok (300, []) :=
  varint_round_trip 300 (by norm_num)

/-- Modelled from the spec: packet framing of the external crate.  The frame
is VarInt of the length of `VarInt(id) ++ body`, then that payload. -/
def encodePacket (id : Nat) (body : List Nat) : List Nat :=
  encodeVarInt (encodeVarInt id ++ body).length ++ (encodeVarInt id ++ body)

/-- Modelled from the spec: frame decoding of the external crate.  Reads a
VarInt length, then exactly that many bytes, then the packet-ID VarInt from
the front of that slice; the remainder of the slice is the body, and bytes
after the frame are returned as the unread rest of the stream. -/
def decodePacket (s : List Nat) : Except FrameError ((Nat × List Nat) × List Nat) :=
  match decodeVarInt s with
  | .error e => .error e
  | .ok (len, rest) =>
    if rest.length < len then .error .TruncatedStream
    else
      match decodeVarInt (rest.take len) with
      | .error e => .error e
      | .ok (id, body) => .ok ((id, body), rest.drop len)

/-- C8: decoding the stream produced by `encodePacket id body` returns
exactly `(id, body)` with nothing left over, for ids in the 32-bit
non-negative range and bodies of 32-bit-representable length. -/
theorem frame_round_trip (id : Nat) (body : List Nat)
    (hid : id ≤ 2 ^ 31 - 1) (hbody : body.length ≤ 2 ^ 31 - 1) :
    decodePacket (encodePacket id body) = .ok ((id, body), []) := by
  have hid5 : (encodeVarInt id).length ≤ 5 := by
    refine encodeVarInt_length_le 5 id (by omega) ?_
    have : (2 : Nat) ^ 31 - 1 < 2 ^ 35 := by norm_num
    omega
  have hlen5 : (encodeVarInt (encodeVarInt id ++ body).length).length ≤ 5 := by
    refine encodeVarInt_length_le 5 _ (by omega) ?_
    have h1 : (encodeVarInt id ++ body).length = (encodeVarInt id).length + body.length :=
      List.length_append _ _
    have : (2 : Nat) ^ 31 - 1 + 5 < 2 ^ 35 := by norm_num
    omega
  have houter := decodeVarInt_encode_append (encodeVarInt id ++ body).length
    (encodeVarInt id ++ body) hlen5
  have hinner := decodeVarInt_encode_append id body hid5
  rw [decodePacket, encodePacket, houter]
  simp only [lt_self_iff_false, if_false, List.take_length, List.drop_length, hinner]

/-- C8 witness: the frame round trip at the concrete packet id 0 with body
bytes 7 and 8. -/
theorem frame_round_trip_witness :
    decodePacket (encodePacket 0 [7, 8]) = .ok ((0, [7, 8]), []) :=
  frame_round_trip 0 [7, 8] (by norm_num) (by norm_num)

theorem decodeVarIntAux_overflow_iff :
    ∀ (s : List Nat) (acc shift count : Nat), count ≤ 4 →
      (decodeVarIntAux acc shift count s = .error .VarIntOverflow ↔
        5 - count ≤ s.length ∧ ∀ b ∈ s.take (5 - count), 128 ≤ b) := by
  intro s
  induction s with
  | nil =>
    intro acc shift count hcount
    simp [decodeVarIntAux]
    omega
  | cons b rest ih =>
    intro acc shift count hcount
    rw [decodeVarIntAux]
    by_cases hb : b < 128
    · simp only [hb, if_true]
      constructor
      · intro h
        cases h
      · rintro ⟨-, hall⟩
        have hmem : b ∈ (b :: rest).take (5 - count) := by
          have h1 : 5 - count = (4 - count) + 1 := by omega
          rw [h1, List.take_succ_cons]
          exact List.mem_cons_self _ _
        have := hall b hmem
        omega
    · simp only [hb, if_false]
      by_cases hc : 4 ≤ count
      · have hc4 : count = 4 := by omega
        subst hc4
        simp only [le_refl, if_true]
        constructor
        · intro _
          refine ⟨by simp only [List.length_cons]; omega, ?_⟩
          intro x hx
          have h1 : (5 : Nat) - 4 = 1 := by norm_num
          rw [h1, List.take_succ_cons, List.take_zero] at hx
          simp at hx
          omega
        · intro _
          trivial
      · simp only [hc, if_false]
        rw [ih _ _ (count + 1) (by omega)]
        have h1 : 5 - count = (4 - count) + 1 := by omega
        have h2 : 5 - (count + 1) = 4 - count := by omega
        rw [h1, h2, List.take_succ_cons]
        simp only [List.length_cons, List.mem_cons]
        constructor
        · rintro ⟨hlen, hall⟩
          refine ⟨by omega, ?_⟩
          rintro x (hx | hx)
          · subst hx
            omega
          · exact hall x hx
        · rintro ⟨hlen, hall⟩
          exact ⟨by omega, fun x hx => hall x (Or.inr hx)⟩

/-- C9: the VarInt decoder fails with `VarIntOverflow` exactly when the
stream starts with five continuation bytes (a VarInt exceeding 5 bytes),
and frame decoding fails with `TruncatedStream` whenever the stream holds
fewer bytes than the decoded length prefix declares. -/
theorem frame_error_conditions :
    (∀ s : List Nat, decodeVarInt s = .error .VarIntOverflow ↔
      5 ≤ s.length ∧ ∀ b ∈ s.take 5, 128 ≤ b) ∧
    (∀ (s : List Nat) (len : Nat) (rest : List Nat),
      decodeVarInt s = .ok (len, rest) → rest.length < len →
      decodePacket s = .error .TruncatedStream) := by
  constructor
  · intro s
    have := decodeVarIntAux_overflow_iff s 0 0 0 (by omega)
    simpa [decodeVarInt] using this
  · intro s len rest hok hlt
    rw [decodePacket, hok]
    simp [hlt]

/-- C9 witness: five continuation bytes overflow, and a declared length of 5
with only two bytes following is a truncated stream. -/
theorem frame_error_conditions_witness :
    decodeVarInt [200, 201, 202, 203, 204] = .error .VarIntOverflow ∧
    decodePacket [5, 1, 2] = .error .TruncatedStream := by
  constructor
  · refine (frame_error_conditions.1 [200, 201, 202, 203, 204]).mpr ?_
    refine ⟨by norm_num, ?_⟩
    decide
  · refine frame_error_conditions.2 [5, 1, 2] 5 [1, 2] ?_ (by norm_num)
    rfl

/-- Error kinds of a status query, after the spec's section on error
handling; `Frame` wraps the codec-level errors.  The concrete error type in
the code is `async_minecraft_ping::ServerError`. -/
inductive ServerError where
  | ConnectError
  | Timeout
  | Frame (e : FrameError)
  | Protocol
  | MalformedDescription
  | MissingField
  | MalformedField
deriving DecidableEq, Repr

/-- The `description` field of a status response: either a bare JSON string
or an object carrying a `text` key, after
`async_minecraft_ping::ServerDescription` as matched in `get_server_status`
(src/lib.rs lines 125-128). -/
inductive ServerDescription where
  | Plain (text : String)
  | Object (text : String)
deriving DecidableEq, Repr

/-- One entry of `players.sample`, after the crate's player type used at
src/lib.rs line 118 (`p.name`). -/
structure Player where
  name : String
  id : String
deriving DecidableEq, Repr

/-- The `players` object of a status response, after the crate's type read
at src/lib.rs lines 115 and 131-134. -/
structure Players where
  online : Int
  max : Int
  sample : Option (List Player)
deriving DecidableEq, Repr

/-- The `version` object of a status response, after the spec's data
model. -/
structure ServerVersion where
  name : String
  protocol : Int
deriving DecidableEq, Repr

/-- A decoded status response, after the spec's `StatusResult` (the crate's
`connection.status` value read by `get_server_status`). -/
structure StatusResult where
  description : ServerDescription
  players : Players
  version : ServerVersion
deriving DecidableEq, Repr

/-- A JSON value, for modelling the status-payload parser. -/
inductive Json where
  | str (s : String)
  | num (n : Int)
  | boolean (b : Bool)
  | null
  | arr (xs : List Json)
  | obj (fields : List (String × Json))

/-- Looks up the first binding of `key` in a JSON object's field list. -/
def jsonLookup (fields : List (String × Json)) (key : String) : Option Json :=
  match fields with
  | [] => none
  | (k, v) :: rest => if k = key then some v else jsonLookup rest key

/-- Modelled from the spec: the `description` branch of the status-JSON
deserializer, which lives in the external `async_minecraft_ping` crate.  A
bare string becomes `Plain`, an object with a string `text` key becomes
`Object`, anything else is `MalformedDescription`. -/
def parseDescription (j : Json) : Except ServerError ServerDescription :=
  match j with
  | .str s => .ok (.Plain s)
  | .obj fields =>
    match jsonLookup fields "text" with
    | some (.str t) => .ok (.Object t)
    | _ => .error .MalformedDescription
  | _ => .error .MalformedDescription

/-- Modelled from the spec: one `players.sample` entry of the status-JSON
deserializer in the external crate; an entry lacking a string `name` (or
`id`) is `MalformedField`. -/
def parsePlayerEntry (j : Json) : Except ServerError Player :=
  match j with
  | .obj fields =>
    match jsonLookup fields "name" with
    | some (.str n) =>
      match jsonLookup fields "id" with
      | some (.str i) => .ok ⟨n, i⟩
      | _ => .error .MalformedField
    | _ => .error .MalformedField
  | _ => .error .MalformedField

/-- Modelled from the spec: the `players` branch of the status-JSON
deserializer in the external crate.  `online` and `max` are required
integers (`MissingField` otherwise); `sample` is optional — an absent key
parses to `none`, a present non-array value is `MalformedField`. -/
def parsePlayers (j : Json) : Except ServerError Players :=
  match j with
  | .obj fields =>
    match jsonLookup fields "online", jsonLookup fields "max" with
    | some (.num o), some (.num m) =>
      match jsonLookup fields "sample" with
      | none => .ok ⟨o, m, none⟩
      | some (.arr entries) =>
        match entries.mapM parsePlayerEntry with
        | .ok ps => .ok ⟨o, m, some ps⟩
        | .error e => .error e
      | some _ => .error .MalformedField
    | _, _ => .error .MissingField
  | _ => .error .MissingField

/-- Resolves either description variant to its display string, mirroring
the `match` at src/lib.rs lines 125-128. -/
def descText (d : ServerDescription) : String :=
  match d with
  | .Plain text => text
  | .Object text => text

/-- The player-name rendering at src/lib.rs lines 115-123: names of the
sample joined by newline when a sample is present, the empty string when it
is absent. -/
def renderPlayers (sample : Option (List Player)) : String :=
  match sample with
  | some ps => String.intercalate "\n" (ps.map Player.name)
  | none => ""

/-- C2: the parser maps the description field by JSON value kind — a bare
string becomes `Plain`, an object with a string `text` key becomes
`Object`, every other shape is `MalformedDescription` — and both variants
resolve to a single display string via `descText`. -/
theorem description_parsing :
    (∀ s, parseDescription (Json.str s) = .ok (ServerDescription.Plain s)) ∧
    (∀ fields t, jsonLookup fields "text" = some (Json.str t) →
      parseDescription (Json.obj fields) = .ok (ServerDescription.Object t)) ∧
    (∀ j, (∀ s, j ≠ Json.str s) →
      (∀ fields, j = Json.obj fields → ∀ t, jsonLookup fields "text" ≠ some (Json.str t)) →
      parseDescription j = .error ServerError.MalformedDescription) ∧
    (∀ s, descText (ServerDescription.Plain s) = s) ∧
    (∀ t, descText (ServerDescription.Object t) = t) := by
  refine ⟨fun s => rfl, ?_, ?_, fun s => rfl, fun t => rfl⟩
  · intro fields t h
    rw [parseDescription, h]
  · intro j h1 h2
    cases j with
    | str s => exact absurd rfl (h1 s)
    | obj fields =>
      rw [parseDescription]
      cases htext : jsonLookup fields "text" with
      | none => rfl
      | some v =>
        cases v with
        | str t => exact absurd htext (h2 fields rfl t)
        | num n => rfl
        | boolean b => rfl
        | null => rfl
        | arr xs => rfl
        | obj f2 => rfl
    | num n => rfl
    | boolean b => rfl
    | null => rfl
    | arr xs => rfl

/-- C2 witness: the spec's three description examples evaluated
concretely. -/
theorem description_parsing_witness :
    parseDescription (Json.str "Hello") = .ok (ServerDescription.Plain "Hello") ∧
    parseDescription (Json.obj [("text", Json.str "Hi")]) =
      .ok (ServerDescription.Object "Hi") ∧
    parseDescription (Json.num 5) = .error ServerError.MalformedDescription := by
  refine ⟨description_parsing.1 "Hello", ?_, ?_⟩
  · exact description_parsing.2.1 [("text", Json.str "Hi")] "Hi" rfl
  · refine description_parsing.2.2.1 (Json.num 5) (fun s h => by cases h) ?_
    intro fields h
    cases h

/-- C3: a status object with required player counts and no `sample` key
parses to `sample = none` rather than an error, and the rendering of an
absent sample and of a present-but-empty sample are the identical empty
string. -/
theorem sample_absent (fields : List (String × Json)) (o m : Int)
    (honline : jsonLookup fields "online" = some (Json.num o))
    (hmax : jsonLookup fields "max" = some (Json.num m))
    (hsample : jsonLookup fields "sample" = none) :
    parsePlayers (Json.obj fields) = .ok ⟨o, m, none⟩ ∧
    renderPlayers none = "" ∧
    renderPlayers (some []) = "" ∧
    renderPlayers none = renderPlayers (some []) := by
  refine ⟨?_, rfl, rfl, rfl⟩
  rw [parsePlayers, honline, hmax, hsample]

/-- C3 witness: a concrete status object with only `online` and `max`. -/
theorem sample_absent_witness :
    parsePlayers (Json.obj [("online", Json.num 2), ("max", Json.num 20)]) =
      .ok ⟨2, 20, none⟩ ∧
    renderPlayers none = renderPlayers (some []) := by
  have h := sample_absent [("online", Json.num 2), ("max", Json.num 20)] 2 20 rfl rfl rfl
  exact ⟨h.1, h.2.2.2⟩

/-- The embed value built by `get_server_status` and by the error branch of
`interaction_create`, after serenity's `CreateEmbed` as used in src/lib.rs
(only title, description and footer text are ever set). -/
structure Embed where
  title : Option String
  description : Option String
  footerText : Option String
deriving DecidableEq, Repr

/-- The environment of one `get_server_status` call: the outcomes of the
three awaited effects (`config.connect()`, `connection.status()`,
`connection.ping(..)`, the last carrying the pong payload the code
discards) and the monotone-clock readings, in milliseconds, at the points
`tokio::time::Instant::now()` and `.elapsed()` observe — `pingStart` just
before the ping is sent and `pingEnd` just after the pong arrives.
`connectMs` and `statusMs` are how long the earlier phases took; the code
never reads them. -/
structure Env where
  connectResult : Except ServerError Unit
  statusResult : Except ServerError StatusResult
  pingResult : Except ServerError Int
  connectMs : Nat
  statusMs : Nat
  pingStart : Nat
  pingEnd : Nat

/-- The embed description line of src/lib.rs lines 157-160:
`format!("Players ({}/{}):\n{}", online, max, players)`. -/
def playersLine (online mx : Int) (names : String) : String :=
  "Players (" ++ toString online ++ "/" ++ toString mx ++ "):\n" ++ names

/-- The embed footer of src/lib.rs line 163:
`format!("Ping: {} ms", latency.as_millis())`. -/
def pingLine (ms : Nat) : String :=
  "Ping: " ++ toString ms ++ " ms"

/-- Shallow embedding of `get_server_status` (src/lib.rs lines 105-168).
Each `?` on an awaited effect becomes a `match` that propagates the error;
the latency is the elapsed monotone-clock time around the ping exchange. -/
def get_server_status (env : Env) : Except ServerError Embed :=
  match env.connectResult with
  | .error e => .error e
  | .ok _ =>
    match env.statusResult with
    | .error e => .error e
    | .ok st =>
      let players := renderPlayers st.players.sample
      let desc := descText st.description
      match env.pingResult with
      | .error e => .error e
      | .ok _ =>
        let latency := env.pingEnd - env.pingStart
        .ok ⟨some desc,
             some (playersLine st.players.online st.players.max players),
             some (pingLine latency)⟩

/-- C1: each phase's failure makes the whole query fail with that phase's
error — in particular a status already fetched is discarded when the ping
then fails — and the query is total: it always returns either a typed error
or a complete embed, never a partial result. -/
theorem query_all_or_nothing (env : Env) :
    (∀ e, env.connectResult = .error e → get_server_status env = .error e) ∧
    (∀ e u, env.connectResult = .ok u → env.statusResult = .error e →
      get_server_status env = .error e) ∧
    (∀ e u st, env.connectResult = .ok u → env.statusResult = .ok st →
      env.pingResult = .error e → get_server_status env = .error e) ∧
    ((∃ e, get_server_status env = .error e) ∨
      (∃ emb, get_server_status env = .ok emb)) := by
  refine ⟨?_, ?_, ?_, ?_⟩
  · intro e h
    rw [get_server_status, h]
  · intro e u hc hs
    rw [get_server_status, hc, hs]
  · intro e u st hc hs hp
    rw [get_server_status, hc, hs]
    simp only [hp]
  · cases h : get_server_status env with
    | error e => exact Or.inl ⟨e, rfl⟩
    | ok emb => exact Or.inr ⟨emb, rfl⟩

/-- The status value of the spec's end-to-end scenario. -/
def stExample : StatusResult :=
  ⟨.Plain "A Server", ⟨2, 20, some [⟨"Alice", "x"⟩, ⟨"Bob", "y"⟩]⟩, ⟨"1.20", 763⟩⟩

/-- An environment whose ping fails after a successful status fetch. -/
def envPingFails : Env :=
  ⟨.ok (), .ok stExample, .error .Timeout, 3, 4, 10, 25⟩

/-- C1 witness: with a successfully fetched status and a failing ping, the
whole query fails with the ping's error. -/
theorem query_all_or_nothing_witness :
    get_server_status envPingFails = .error .Timeout :=
  (query_all_or_nothing envPingFails).2.2.1 .Timeout () stExample rfl rfl rfl

/-- C4: on a fully successful query the embed is assembled as title = the
description's resolved text, body = the players line over the joined sample
names, footer = the ping line over the measured milliseconds; and the
sample `[Alice, Bob]` joins to `"Alice\nBob"` with the counts rendered as
`2/20`. -/
theorem presentation_assembly (env : Env) (st : StatusResult) (u : Unit) (p : Int)
    (hc : env.connectResult = .ok u) (hs : env.statusResult = .ok st)
    (hp : env.pingResult = .ok p) :
    get_server_status env =
      .ok ⟨some (descText st.description),
           some (playersLine st.players.online st.players.max
             (renderPlayers st.players.sample)),
           some (pingLine (env.pingEnd - env.pingStart))⟩ ∧
    renderPlayers (some [⟨"Alice", "x"⟩, ⟨"Bob", "y"⟩]) = "Alice\nBob" ∧
    playersLine 2 20 "Alice\nBob" = "Players (2/20):\nAlice\nBob" := by
  refine ⟨?_, by decide, by decide⟩
  rw [get_server_status, hc, hs]
  simp only [hp]

/-- An environment for the fully successful scenario: ping sent at 10 ms,
pong received at 25 ms, payload 299792458 as in src/lib.rs line 137. -/
def envOk : Env :=
  ⟨.ok (), .ok stExample, .ok 299792458, 3, 4, 10, 25⟩

/-- C4 witness: the fully assembled embed of the end-to-end scenario. -/
theorem presentation_assembly_witness :
    get_server_status envOk =
      .ok ⟨some "A Server", some "Players (2/20):\nAlice\nBob", some "Ping: 15 ms"⟩ := by
  have h := (presentation_assembly envOk stExample () 299792458 rfl rfl rfl).1
  rw [h]
  rfl

/-- C5: the reported latency is the monotone-clock time elapsed between
sending the ping and receiving the pong (`pingStart + latency = pingEnd`),
it appears in the footer of the successful result, and the result is
unchanged under any alteration of the pong payload or of how long the
connect and status phases took — the measurement brackets only the
ping/pong exchange and never inspects the echoed payload. -/
theorem latency_measurement (env : Env) (st : StatusResult) (p : Int)
    (hc : env.connectResult = .ok ()) (hs : env.statusResult = .ok st)
    (hp : env.pingResult = .ok p) (hmono : env.pingStart ≤ env.pingEnd) :
    (∃ t b, get_server_status env =
      .ok ⟨t, b, some (pingLine (env.pingEnd - env.pingStart))⟩) ∧
    env.pingStart + (env.pingEnd - env.pingStart) = env.pingEnd ∧
    (∀ (p2 : Int) (cMs sMs : Nat),
      get_server_status
        ⟨env.connectResult, env.statusResult, .ok p2, cMs, sMs,
         env.pingStart, env.pingEnd⟩ = get_server_status env) := by
  refine ⟨?_, by omega, ?_⟩
  · refine ⟨some (descText st.description),
      some (playersLine st.players.online st.players.max
        (renderPlayers st.players.sample)), ?_⟩
    rw [get_server_status, hc, hs]
    simp only [hp]
  · intro p2 cMs sMs
    rw [get_server_status, get_server_status, hc, hs]
    simp only [hp]

/-- C5 witness: with the ping bracketed by clock readings 10 ms and 25 ms,
the elapsed reading reconstructs the end time, and neither the pong payload
nor the connect/status durations change the result. -/
theorem latency_measurement_witness :
    envOk.pingStart + (envOk.pingEnd - envOk.pingStart) = envOk.pingEnd ∧
    get_server_status
      ⟨envOk.connectResult, envOk.statusResult, .ok 0, 99, 99,
       envOk.pingStart, envOk.pingEnd⟩ = get_server_status envOk := by
  have h := latency_measurement envOk stExample 299792458 rfl rfl rfl (by decide)
  exact ⟨h.2.1, h.2.2 0 99 99⟩

/-- Modelled from the spec: the peer's behaviour toward one timeout-bounded
query of the protocol client (which lives in the external
`async_minecraft_ping` crate, not in this repository).  Each phase records
when the peer's answer arrives (`none` = it never responds) and what the
answer is; the ping phase's reply delay is the measured latency. -/
structure NetEnv where
  connectReply : Option Nat
  connectResult : Except ServerError Unit
  statusReply : Option Nat
  statusResult : Except ServerError StatusResult
  pingReply : Option Nat

/-- The result of a timeout-bounded query together with the state of its
connection when control returns to the caller. -/
structure QueryOutcome where
  result : Except ServerError (StatusResult × Nat)
  connectionClosed : Bool

/-- Modelled from the spec: one timeout-bounded network phase — if the peer
never answers, or answers only after the timeout, the phase yields
`Timeout`; otherwise it yields the peer's answer. -/
def phaseWithTimeout {α : Type} (timeout : Nat) (reply : Option Nat)
    (res : Except ServerError α) : Except ServerError α :=
  match reply with
  | none => .error .Timeout
  | some t => if timeout < t then .error .Timeout else res

/-- Modelled from the spec: the caller-facing `queryStatus(host, port,
timeout)` of the protocol client, abstracted over the peer behaviour
`env`.  Every network phase is bounded by the caller-supplied timeout, and
the connection is closed on every exit path. -/
def queryStatus (env : NetEnv) (timeout : Nat) : QueryOutcome :=
  match phaseWithTimeout timeout env.connectReply env.connectResult with
  | .error e => ⟨.error e, true⟩
  | .ok _ =>
    match phaseWithTimeout timeout env.statusReply env.statusResult with
    | .error e => ⟨.error e, true⟩
    | .ok st =>
      match env.pingReply with
      | none => ⟨.error .Timeout, true⟩
      | some t =>
        if timeout < t then ⟨.error .Timeout, true⟩
        else ⟨.ok (st, t), true⟩

/-- C6: every phase of `queryStatus` is bounded by the caller-supplied
timeout: a peer that never responds (or responds too late) in the connect,
status or ping phase makes the query yield the typed `Timeout` error, the
error carries no partial status, and the connection is closed on every exit
path. -/
theorem timeout_bounds (env : NetEnv) (timeout : Nat) :
    (env.connectReply = none →
      (queryStatus env timeout).result = .error .Timeout) ∧
    (∀ t, env.connectReply = some t → timeout < t →
      (queryStatus env timeout).result = .error .Timeout) ∧
    (∀ t, env.connectReply = some t → t ≤ timeout → env.connectResult = .ok () →
      env.statusReply = none →
      (queryStatus env timeout).result = .error .Timeout) ∧
    (∀ t t2 st, env.connectReply = some t → t ≤ timeout →
      env.connectResult = .ok () → env.statusReply = some t2 → t2 ≤ timeout →
      env.statusResult = .ok st → env.pingReply = none →
      (queryStatus env timeout).result = .error .Timeout) ∧
    (queryStatus env timeout).connectionClosed = true := by
  refine ⟨?_, ?_, ?_, ?_, ?_⟩
  · intro h
    rw [queryStatus, h, phaseWithTimeout]
  · intro t h hlt
    rw [queryStatus, h, phaseWithTimeout]
    simp only [if_pos hlt]
  · intro t h hle hok hs
    rw [queryStatus, h, phaseWithTimeout, if_neg (by omega), hok, hs,
      phaseWithTimeout]
  · intro t t2 st h hle hok hs hle2 hsok hp
    rw [queryStatus, h, phaseWithTimeout, if_neg (by omega), hok, hs,
      phaseWithTimeout, if_neg (by omega), hsok, hp]
  · rw [queryStatus]
    split
    · rfl
    · split
      · rfl
      · split
        · rfl
        · split <;> rfl

/-- A peer that accepts the connection in time and then never answers the
status request. -/
def envSilent : NetEnv :=
  ⟨some 5, .ok (), none, .ok stExample, none⟩

/-- C6 witness: with a 100 ms timeout against a peer that never answers the
status request, the query yields `Timeout` and the connection is closed. -/
theorem timeout_bounds_witness :
    (queryStatus envSilent 100).result = .error .Timeout ∧
    (queryStatus envSilent 100).connectionClosed = true := by
  have h := timeout_bounds envSilent 100
  exact ⟨h.2.2.1 5 rfl (by norm_num) rfl rfl, h.2.2.2.2⟩

/-- The outcome of handling one application-command interaction: either a
response embed is created, or the handler panics (Rust `unreachable!`). -/
inductive InteractionOutcome where
  | respond (e : Embed)
  | panicked (msg : String)
deriving Repr

/-- Shallow embedding of the command dispatch in `interaction_create`
(src/lib.rs lines 36-51).  `errText` abstracts the `Display` rendering of
the crate's error type (`err.to_string()`); `query` is the outcome of
`get_server_status`.  The `"status"` arm responds with the query's embed or
with an embed carrying the error text; every other command name hits
`unreachable!("Unknown command: ...")`. -/
def interaction_create (errText : ServerError → String) (name : String)
    (query : Except ServerError Embed) : InteractionOutcome :=
  if name = "status" then
    match query with
    | .ok emb => .respond emb
    | .error e => .respond ⟨none, some (errText e), none⟩
  else .panicked ("Unknown command: " ++ name)

/-- C10: an application command whose name is not `"status"` makes
`interaction_create` panic via the `unreachable!` arm instead of returning
a response, and `"status"` is dispatched to the status query's outcome. -/
theorem interaction_unknown_command (errText : ServerError → String)
    (name : String) (query : Except ServerError Embed) (h : name ≠ "status") :
    interaction_create errText name query =
      .panicked ("Unknown command: " ++ name) ∧
    (∀ emb, query = .ok emb →
      interaction_create errText "status" query = .respond emb) ∧
    (∀ e, query = .error e →
      interaction_create errText "status" query =
        .respond ⟨none, some (errText e), none⟩) := by
  refine ⟨?_, ?_, ?_⟩
  · rw [interaction_create.eq_def, if_neg h]
  · intro emb hq
    rw [interaction_create.eq_def, if_pos rfl, hq]
  · intro e hq
    rw [interaction_create.eq_def, if_pos rfl, hq]

/-- C10 witness: the command name `"hello"` panics with the unreachable
message, while `"status"` responds with the query's embed. -/
theorem interaction_unknown_command_witness :
    interaction_create (fun _ => "") "hello" (.ok ⟨none, none, none⟩) =
      .panicked ("Unknown command: " ++ "hello") ∧
    interaction_create (fun _ => "") "status" (.ok ⟨none, none, none⟩) =
      .respond ⟨none, none, none⟩ := by
  have h := interaction_unknown_command (fun _ => "") "hello"
    (.ok ⟨none, none, none⟩) (by decide)
  exact ⟨h.1, h.2.1 ⟨none, none, none⟩ rfl⟩

end McStatusBot
